import Mathlib

/-!
Verification of the pigpio-sht4x driver (`src/pigpio_sht4x/__init__.py`).

The development shallowly embeds the driver: the CRC engine
(`make_crc_table`, `crc8_fast`), the frame decoder (`parse_sht4x`), and the
sensor session (`SHT4x.read`, `SHT4x.reset`, `SHT4x.close`,
`SHT4x.measurements`).  Python machine bytes become `Nat` with explicit
masking (`&&& 0xFF`), Python floats become exact rationals (`ℚ`), exceptions
become `Except`, and the pigpio transport becomes an explicit `Transport`
record of response functions together with a trace (`List TransportOp`) of
the bus operations each method performs.  `time.sleep` has no observable
state effect and is not modelled.
-/

set_option maxRecDepth 100000

/-- One inner-loop step of `make_crc_table`: if the high bit is set, shift
left, mask to 8 bits and xor the polynomial, else shift left and mask. -/
def crcStep (poly : Nat) (crc : Nat) : Nat :=
  if crc &&& 0x80 ≠ 0 then ((crc <<< 1) &&& 0xFF) ^^^ poly
  else (crc <<< 1) &&& 0xFF

/-- The body of the `for byte in range(256)` loop of `make_crc_table`:
8 iterations (`for _ in range(8)`) of `crcStep` starting from the byte. -/
def crcEntry (poly : Nat) (byte : Nat) : Nat :=
  (List.range 8).foldl (fun crc _ => crcStep poly crc) byte

/-- Embedding of `make_crc_table(poly)`: the table list built by appending
the entry for each byte value `0..255` in order. -/
def make_crc_table (poly : Nat) : List Nat :=
  (List.range 256).foldl (fun table byte => table ++ [crcEntry poly byte]) []

/-- The module-level constant `CRC_TABLE = make_crc_table()` (default
polynomial `0x31`). -/
def CRC_TABLE : List Nat := make_crc_table 0x31

/-- Embedding of `crc8_fast(data, init=0xFF)`: folds
`crc = CRC_TABLE[crc ^ byte]` over the input bytes and returns the final
running value.  The Python list indexing is modelled by `List.getD`; the
in-range invariant is proved separately. -/
def crc8_fast (data : List Nat) (init : Nat) : Nat :=
  data.foldl (fun crc byte => CRC_TABLE.getD (crc ^^^ byte) 0) init

/-- The sensor's documented CRC-8 variant, written directly from its
bit-level description (polynomial `0x31`, MSB first, no final xor): each
input byte is xor-ed into the running value, which then undergoes 8
iterations of shift-left-and-conditionally-xor-the-polynomial, masked to
8 bits.  Used as the specification side of the refinement claim about
`crc8_fast`. -/
def crc8_spec (data : List Nat) (init : Nat) : Nat :=
  data.foldl
    (fun crc byte =>
      (fun c =>
        if c &&& 0x80 ≠ 0 then ((c <<< 1) &&& 0xFF) ^^^ 0x31
        else (c <<< 1) &&& 0xFF)^[8] (crc ^^^ byte))
    init

/-- The two `RuntimeError` cases raised by `parse_sht4x`, keeping the
structured data of the Python message (computed checksum and embedded
checksum byte) and which field failed. -/
inductive DecodeError where
  | tempCrc (expected actual : Nat)
  | humCrc (expected actual : Nat)
deriving DecidableEq

/-- Embedding of `SHT4x.parse_sht4x(buf)`: split the 6-byte frame, validate
the temperature CRC then the humidity CRC, then convert the big-endian raw
words with the linear transfer functions.  Python float arithmetic is
modelled exactly over `ℚ`. -/
def parse_sht4x (buf : List Nat) : Except DecodeError (ℚ × ℚ) :=
  let t_bytes := [buf.getD 0 0, buf.getD 1 0]
  let t_crc := buf.getD 2 0
  let h_bytes := [buf.getD 3 0, buf.getD 4 0]
  let h_crc := buf.getD 5 0
  if crc8_fast t_bytes 0xFF ≠ t_crc then
    Except.error (DecodeError.tempCrc (crc8_fast t_bytes 0xFF) t_crc)
  else if crc8_fast h_bytes 0xFF ≠ h_crc then
    Except.error (DecodeError.humCrc (crc8_fast h_bytes 0xFF) h_crc)
  else
    let t_raw : Nat := buf.getD 0 0 * 256 + buf.getD 1 0
    let h_raw : Nat := buf.getD 3 0 * 256 + buf.getD 4 0
    Except.ok (-45 + 175 * ((t_raw : ℚ) / 65535), 100 * ((h_raw : ℚ) / 65535))

/-- Trace entries recording each pigpio call a session method performs. -/
inductive TransportOp where
  | openBus (bus address : Nat)
  | writeByte (handle : Int) (byte : Nat)
  | readDevice (handle : Int) (count : Nat)
  | closeHandle (handle : Int)
deriving DecidableEq

/-- The pigpio transport, as the pure responses the driver observes:
`i2c_open` yields a handle (negative on failure), `i2c_write_byte` yields a
status code, `i2c_read_device` yields a count (negative on error) and the
bytes read. -/
structure Transport where
  openResult : Nat → Nat → Int
  writeByteResult : Int → Nat → Int
  readDeviceResult : Int → Nat → Int × List Nat

/-- The `RuntimeError`s raised by the session methods, one constructor per
distinct raise site, plus propagated decode errors. -/
inductive Err where
  | cannotOpen (bus address : Nat)
  | resetFailed
  | measureCmdFailed
  | readLength (expected : Nat) (actual : Int)
  | decode (e : DecodeError)
deriving DecidableEq

/-- The mutable state of a Python `SHT4x` object: the pigpio handle and the
current mode byte.  `close()` mutates nothing, so there is no closed flag —
exactly as in the source. -/
structure SHT4x where
  handle : Int
  mode : Nat
deriving DecidableEq

/-- Command constant `SOFT_RESET` from the source. -/
def SHT4x.SOFT_RESET : Nat := 0x94

/-- Command constant `NOHEAT_HIGHPRECISION` from the source. -/
def SHT4x.NOHEAT_HIGHPRECISION : Nat := 0xFD

/-- Command constant `NOHEAT_MEDPRECISION` from the source. -/
def SHT4x.NOHEAT_MEDPRECISION : Nat := 0xF6

/-- Command constant `NOHEAT_LOWPRECISION` from the source. -/
def SHT4x.NOHEAT_LOWPRECISION : Nat := 0xE0

/-- Command constant `HIGHHEAT_1S` from the source. -/
def SHT4x.HIGHHEAT_1S : Nat := 0x39

/-- Command constant `HIGHHEAT_100MS` from the source. -/
def SHT4x.HIGHHEAT_100MS : Nat := 0x3A

/-- Command constant `MEDHEAT_1S` from the source. -/
def SHT4x.MEDHEAT_1S : Nat := 0x32

/-- Command constant `MEDHEAT_100MS` from the source. -/
def SHT4x.MEDHEAT_100MS : Nat := 0x33

/-- Command constant `LOWHEAT_1S` from the source. -/
def SHT4x.LOWHEAT_1S : Nat := 0x2F

/-- Command constant `LOWHEAT_100MS` from the source. -/
def SHT4x.LOWHEAT_100MS : Nat := 0x30

/-- Embedding of `SHT4x.__init__`: opens the bus, fails when the handle is
negative, and stores `mode or NOHEAT_HIGHPRECISION` (Python `or`: both
`None` and the falsy byte `0` select the default). -/
def SHT4x.init (tr : Transport) (bus address : Nat) (mode : Option Nat) :
    Except Err SHT4x × List TransportOp :=
  if tr.openResult bus address < 0 then
    (Except.error (Err.cannotOpen bus address), [TransportOp.openBus bus address])
  else
    (Except.ok
      { handle := tr.openResult bus address
        mode :=
          match mode with
          | none => SHT4x.NOHEAT_HIGHPRECISION
          | some m => if m = 0 then SHT4x.NOHEAT_HIGHPRECISION else m },
     [TransportOp.openBus bus address])

/-- Embedding of `SHT4x.reset`: writes the soft-reset byte and raises when
the status is nonzero. -/
def SHT4x.reset (tr : Transport) (s : SHT4x) :
    Except Err Unit × List TransportOp :=
  (if tr.writeByteResult s.handle SHT4x.SOFT_RESET ≠ 0 then
    Except.error Err.resetFailed
   else Except.ok (),
   [TransportOp.writeByte s.handle SHT4x.SOFT_RESET])

/-- Embedding of `SHT4x.read`: writes the stored mode byte (raising on a
nonzero status), sleeps (not modelled: no state effect), reads 6 bytes, and
raises when the returned count differs from 6. -/
def SHT4x.read (tr : Transport) (s : SHT4x) :
    Except Err (List Nat) × List TransportOp :=
  if tr.writeByteResult s.handle s.mode ≠ 0 then
    (Except.error Err.measureCmdFailed, [TransportOp.writeByte s.handle s.mode])
  else if (tr.readDeviceResult s.handle 6).1 ≠ 6 then
    (Except.error (Err.readLength 6 (tr.readDeviceResult s.handle 6).1),
     [TransportOp.writeByte s.handle s.mode, TransportOp.readDevice s.handle 6])
  else
    (Except.ok (tr.readDeviceResult s.handle 6).2,
     [TransportOp.writeByte s.handle s.mode, TransportOp.readDevice s.handle 6])

/-- Embedding of the `measurements` property: `parse_sht4x(read())`, with
every raise propagated. -/
def SHT4x.measurements (tr : Transport) (s : SHT4x) :
    Except Err (ℚ × ℚ) × List TransportOp :=
  match SHT4x.read tr s with
  | (Except.error e, log) => (Except.error e, log)
  | (Except.ok data, log) =>
      (match parse_sht4x data with
       | Except.error e => Except.error (Err.decode e)
       | Except.ok m => Except.ok m, log)

/-- Embedding of `SHT4x.close`: unconditionally calls
`pi.i2c_close(self.handle)` (status ignored) and mutates nothing, so it
returns only the transport trace. -/
def SHT4x.close (s : SHT4x) : List TransportOp :=
  [TransportOp.closeHandle s.handle]

/-- Two consecutive `close()` calls on the same session object. -/
def closeTwice (s : SHT4x) : List TransportOp :=
  SHT4x.close s ++ SHT4x.close s

/-- A checksum-correct 6-byte frame for a raw temperature word and a raw
humidity word, laid out big-endian as the sensor sends it. -/
def mkFrame (t h : Nat) : List Nat :=
  [t / 256, t % 256, crc8_fast [t / 256, t % 256] 0xFF,
   h / 256, h % 256, crc8_fast [h / 256, h % 256] 0xFF]

/-- Flip bit `k` of a byte. -/
def flipBit (x : Nat) (k : Nat) : Nat := x ^^^ (1 <<< k)

/-- Flip bit `k` (0..15) of the 16-bit big-endian word `(hi, lo)`:
bits 0..7 live in the low byte, bits 8..15 in the high byte. -/
def flipWord (hi lo : Nat) (k : Nat) : Nat × Nat :=
  if k < 8 then (hi, flipBit lo k) else (flipBit hi (k - 8), lo)

/-- A transport that accepts everything: open yields handle 1, writes
succeed, and reads return a checksum-valid 6-byte frame. -/
def trOK : Transport where
  openResult := fun _ _ => 1
  writeByteResult := fun _ _ => 0
  readDeviceResult := fun _ _ => (6, [0xBE, 0xEF, 0x92, 0xBE, 0xEF, 0x92])

/-- A transport whose byte writes are rejected with a pigpio-style negative
status. -/
def trRejecting : Transport where
  openResult := fun _ _ => 1
  writeByteResult := fun _ _ => -5
  readDeviceResult := fun _ _ => (6, [0xBE, 0xEF, 0x92, 0xBE, 0xEF, 0x92])

/-- A transport whose 6-byte read comes back short, with only 5 bytes. -/
def trShort : Transport where
  openResult := fun _ _ => 1
  writeByteResult := fun _ _ => 0
  readDeviceResult := fun _ _ => (5, [0xBE, 0xEF, 0x92, 0xBE, 0xEF])

/-- A session object as produced by a successful `__init__` against `trOK`
with the default mode. -/
def s0 : SHT4x := { handle := 1, mode := 0xFD }

/-- Appending one mapped element at a time is `List.map`. -/
lemma foldl_append_singleton_eq_map {α β : Type} (f : α → β) :
    ∀ (l : List α) (acc : List β),
      l.foldl (fun t b => t ++ [f b]) acc = acc ++ l.map f := by
  intro l
  induction l with
  | nil => intro acc; simp
  | cons a l ih => intro acc; simp [ih]

/-- The table-building loop is a map over the byte values `0..255`. -/
lemma make_crc_table_eq_map (poly : Nat) :
    make_crc_table poly = (List.range 256).map (crcEntry poly) := by
  unfold make_crc_table
  rw [foldl_append_singleton_eq_map]
  simp

/-- The table has exactly 256 entries. -/
lemma make_crc_table_length (poly : Nat) : (make_crc_table poly).length = 256 := by
  rw [make_crc_table_eq_map]
  simp

/-- Indexing the table below 256 yields the loop result for that byte. -/
lemma make_crc_table_getD (poly : Nat) {n : Nat} (hn : n < 256) :
    (make_crc_table poly).getD n 0 = crcEntry poly n := by
  rw [make_crc_table_eq_map, List.getD_eq_getElem?_getD, List.getElem?_map,
    List.getElem?_range hn]
  rfl

/-- The 8-iteration loop of `crcEntry` is `crcStep` iterated 8 times. -/
lemma crcEntry_eq_iterate (poly b : Nat) : crcEntry poly b = (crcStep poly)^[8] b := rfl

/-- Xor of two bytes is a byte. -/
lemma xor_lt_256 {x y : Nat} (hx : x < 256) (hy : y < 256) : x ^^^ y < 256 := by
  have h : (256 : Nat) = 2 ^ 8 := by norm_num
  rw [h] at hx hy ⊢
  exact Nat.xor_lt_two_pow hx hy

/-- One table-loop step always produces a byte, for any 8-bit polynomial. -/
lemma crcStep_lt {poly : Nat} (hp : poly < 256) (x : Nat) : crcStep poly x < 256 := by
  unfold crcStep
  split
  · exact xor_lt_256 (lt_of_le_of_lt Nat.and_le_right (by norm_num)) hp
  · exact lt_of_le_of_lt Nat.and_le_right (by norm_num)

/-- Every table entry is a byte, for any 8-bit polynomial. -/
lemma crcEntry_lt {poly : Nat} (hp : poly < 256) (b : Nat) : crcEntry poly b < 256 := by
  rw [crcEntry_eq_iterate]
  have h8 : (8 : Nat) = Nat.succ 7 := rfl
  rw [h8, Function.iterate_succ_apply']
  exact crcStep_lt hp _

/-- Looking anything up in `CRC_TABLE` (default 0) yields a byte. -/
lemma CRC_TABLE_getD_lt (n : Nat) : CRC_TABLE.getD n 0 < 256 := by
  by_cases hn : n < 256
  · rw [CRC_TABLE, make_crc_table_getD _ hn]
    exact crcEntry_lt (by norm_num) n
  · rw [List.getD_eq_default]
    · norm_num
    · rw [CRC_TABLE, make_crc_table_length]
      omega

/-- The 256 entries of `CRC_TABLE` are pairwise distinct (the polynomial
`0x31` has a nonzero constant term, so the byte-to-remainder map is a
bijection; checked by computation). -/
lemma CRC_TABLE_nodup : CRC_TABLE.Nodup := by decide

/-- Table lookup is injective on indices `0..255`. -/
lemma CRC_TABLE_getD_inj {i j : Nat} (hi : i < 256) (hj : j < 256)
    (h : CRC_TABLE.getD i 0 = CRC_TABLE.getD j 0) : i = j := by
  have hlen : CRC_TABLE.length = 256 := make_crc_table_length 0x31
  have hi' : i < CRC_TABLE.length := by omega
  have hj' : j < CRC_TABLE.length := by omega
  rw [List.getD_eq_getElem _ _ hi', List.getD_eq_getElem _ _ hj'] at h
  have hget : CRC_TABLE.get ⟨i, hi'⟩ = CRC_TABLE.get ⟨j, hj'⟩ := by
    rw [List.get_eq_getElem, List.get_eq_getElem]
    exact h
  have hfin := (CRC_TABLE_nodup.get_inj_iff).mp hget
  exact congrArg Fin.val hfin

/-- Flipping a bit changes the byte. -/
lemma flipBit_ne (x k : Nat) : flipBit x k ≠ x := by
  unfold flipBit
  intro h
  have h0 : x ^^^ (1 <<< k) = x ^^^ 0 := by rw [Nat.xor_zero]; exact h
  have h1 : (1 <<< k) = 0 := Nat.xor_right_injective h0
  rw [Nat.shiftLeft_eq, Nat.one_mul] at h1
  exact absurd h1 (Nat.pos_iff_ne_zero.mp (Nat.two_pow_pos k))

/-- Flipping one of the 8 low bits of a byte yields a byte. -/
lemma flipBit_lt {x k : Nat} (hx : x < 256) (hk : k < 8) : flipBit x k < 256 := by
  unfold flipBit
  refine xor_lt_256 hx ?_
  rw [Nat.shiftLeft_eq, Nat.one_mul]
  calc 2 ^ k < 2 ^ 8 := Nat.pow_lt_pow_right (by norm_num) hk
    _ = 256 := by norm_num

/-- Shape of `crc8_fast` on a 2-byte word: two table lookups. -/
lemma crc8_fast_two (a b : Nat) :
    crc8_fast [a, b] 0xFF
      = CRC_TABLE.getD (CRC_TABLE.getD (0xFF ^^^ a) 0 ^^^ b) 0 := rfl

/-- Flipping any bit of the low byte of a word changes its CRC. -/
lemma crc8_flip_lo_ne {b : Nat} (a : Nat) (hb : b < 256) {k : Nat} (hk : k < 8) :
    crc8_fast [a, flipBit b k] 0xFF ≠ crc8_fast [a, b] 0xFF := by
  intro h
  rw [crc8_fast_two, crc8_fast_two] at h
  have hX : CRC_TABLE.getD (0xFF ^^^ a) 0 < 256 := CRC_TABLE_getD_lt _
  have h1 : CRC_TABLE.getD (0xFF ^^^ a) 0 ^^^ flipBit b k < 256 :=
    xor_lt_256 hX (flipBit_lt hb hk)
  have h2 : CRC_TABLE.getD (0xFF ^^^ a) 0 ^^^ b < 256 := xor_lt_256 hX hb
  have h3 := CRC_TABLE_getD_inj h1 h2 h
  exact flipBit_ne b k (Nat.xor_right_injective h3)

/-- Flipping any bit of the high byte of a word changes its CRC. -/
lemma crc8_flip_hi_ne {a : Nat} (ha : a < 256) (b : Nat) (hb : b < 256)
    {k : Nat} (hk : k < 8) :
    crc8_fast [flipBit a k, b] 0xFF ≠ crc8_fast [a, b] 0xFF := by
  intro h
  rw [crc8_fast_two, crc8_fast_two] at h
  have hin1 : (0xFF ^^^ flipBit a k) < 256 :=
    xor_lt_256 (by norm_num) (flipBit_lt ha hk)
  have hin2 : (0xFF ^^^ a) < 256 := xor_lt_256 (by norm_num) ha
  have hX1 : CRC_TABLE.getD (0xFF ^^^ flipBit a k) 0 < 256 := CRC_TABLE_getD_lt _
  have hX2 : CRC_TABLE.getD (0xFF ^^^ a) 0 < 256 := CRC_TABLE_getD_lt _
  have hout := CRC_TABLE_getD_inj (xor_lt_256 hX1 hb) (xor_lt_256 hX2 hb) h
  have hXeq : CRC_TABLE.getD (0xFF ^^^ flipBit a k) 0
      = CRC_TABLE.getD (0xFF ^^^ a) 0 := Nat.xor_left_injective hout
  have hieq := CRC_TABLE_getD_inj hin1 hin2 hXeq
  exact flipBit_ne a k (Nat.xor_right_injective hieq)

/-- Branch-level characterization of `parse_sht4x` on an explicit 6-byte
frame. -/
lemma parse_sht4x_eq (b0 b1 b2 b3 b4 b5 : Nat) :
    parse_sht4x [b0, b1, b2, b3, b4, b5] =
      if crc8_fast [b0, b1] 0xFF ≠ b2 then
        Except.error (DecodeError.tempCrc (crc8_fast [b0, b1] 0xFF) b2)
      else if crc8_fast [b3, b4] 0xFF ≠ b5 then
        Except.error (DecodeError.humCrc (crc8_fast [b3, b4] 0xFF) b5)
      else
        Except.ok (-45 + 175 * (((b0 * 256 + b1 : Nat) : ℚ) / 65535),
          100 * (((b3 * 256 + b4 : Nat) : ℚ) / 65535)) := rfl

/-- If the temperature checksum check fails, `parse_sht4x` raises the
temperature mismatch error. -/
lemma parse_sht4x_temp_fail {b0 b1 b2 : Nat} (b3 b4 b5 : Nat)
    (h : crc8_fast [b0, b1] 0xFF ≠ b2) :
    parse_sht4x [b0, b1, b2, b3, b4, b5]
      = Except.error (DecodeError.tempCrc (crc8_fast [b0, b1] 0xFF) b2) := by
  rw [parse_sht4x_eq, if_pos h]

/-- If the temperature checksum validates but the humidity checksum check
fails, `parse_sht4x` raises the humidity mismatch error. -/
lemma parse_sht4x_hum_fail {b0 b1 b2 b3 b4 b5 : Nat}
    (ht : crc8_fast [b0, b1] 0xFF = b2) (h : crc8_fast [b3, b4] 0xFF ≠ b5) :
    parse_sht4x [b0, b1, b2, b3, b4, b5]
      = Except.error (DecodeError.humCrc (crc8_fast [b3, b4] 0xFF) b5) := by
  rw [parse_sht4x_eq, if_neg (by simp [ht]), if_pos h]

/-- If both checksums validate, `parse_sht4x` returns the converted pair. -/
lemma parse_sht4x_ok {b0 b1 b2 b3 b4 b5 : Nat}
    (ht : crc8_fast [b0, b1] 0xFF = b2) (hh : crc8_fast [b3, b4] 0xFF = b5) :
    parse_sht4x [b0, b1, b2, b3, b4, b5]
      = Except.ok (-45 + 175 * (((b0 * 256 + b1 : Nat) : ℚ) / 65535),
          100 * (((b3 * 256 + b4 : Nat) : ℚ) / 65535)) := by
  rw [parse_sht4x_eq, if_neg (by simp [ht]), if_neg (by simp [hh])]

/-- Unfolding `crc8_fast` one byte at a time. -/
lemma crc8_fast_cons (b : Nat) (l : List Nat) (init : Nat) :
    crc8_fast (b :: l) init = crc8_fast l (CRC_TABLE.getD (init ^^^ b) 0) := rfl

/-- Unfolding `crc8_spec` one byte at a time. -/
lemma crc8_spec_cons (b : Nat) (l : List Nat) (init : Nat) :
    crc8_spec (b :: l) init = crc8_spec l ((crcStep 0x31)^[8] (init ^^^ b)) := rfl

/-- The table-driven CRC agrees with the bit-level CRC on byte data. -/
lemma crc8_fast_eq_spec :
    ∀ (data : List Nat) (init : Nat), init < 256 → (∀ b ∈ data, b < 256) →
      crc8_fast data init = crc8_spec data init := by
  intro data
  induction data with
  | nil => intro init _ _; rfl
  | cons b l ih =>
    intro init hi hd
    have hb : b < 256 := hd b (by simp)
    have hx : init ^^^ b < 256 := xor_lt_256 hi hb
    rw [crc8_fast_cons, crc8_spec_cons, CRC_TABLE, make_crc_table_getD _ hx,
      crcEntry_eq_iterate]
    exact ih _ (crcEntry_eq_iterate 0x31 (init ^^^ b) ▸ crcEntry_lt (by norm_num) _)
      (fun x hxl => hd x (by simp [hxl]))

/-- The running value of `crc8_fast` stays below 256 from any byte start. -/
lemma crc8_fast_lt (data : List Nat) :
    ∀ init, init < 256 → crc8_fast data init < 256 := by
  induction data with
  | nil => intro init hi; exact hi
  | cons b l ih =>
    intro init _
    rw [crc8_fast_cons]
    exact ih _ (CRC_TABLE_getD_lt _)

/-- Every`read` trace starts with the write of the stored mode byte. -/
lemma read_trace_head (tr : Transport) (s : SHT4x) :
    (SHT4x.read tr s).2.head? = some (TransportOp.writeByte s.handle s.mode) := by
  unfold SHT4x.read
  split
  · rfl
  · split
    · rfl
    · rfl

/-- Decoding a checksum-correct frame yields the exact linear formulas. -/
lemma parse_mkFrame (t h : Nat) :
    parse_sht4x (mkFrame t h)
      = Except.ok (-45 + 175 * (((t / 256 * 256 + t % 256 : Nat) : ℚ) / 65535),
          100 * (((h / 256 * 256 + h % 256 : Nat) : ℚ) / 65535)) := by
  show parse_sht4x [t / 256, t % 256, crc8_fast [t / 256, t % 256] 0xFF,
    h / 256, h % 256, crc8_fast [h / 256, h % 256] 0xFF] = _
  exact parse_sht4x_ok rfl rfl

/-- Reassembling the big-endian bytes of a 16-bit word gives it back. -/
lemma word_roundtrip (t : Nat) : t / 256 * 256 + t % 256 = t := by omega

/-- C1: `crc8_fast` computes the sensor's documented CRC-8 variant
(polynomial 0x31, initial value 0xFF, no final xor): on byte data it agrees
with the direct bit-level computation `crc8_spec`, and on the byte sequence
`[0xBE, 0xEF]` it returns the documented known-vector value `0x92`. -/
theorem C1_crc8_matches_documented_variant (data : List Nat) (init : Nat)
    (hinit : init < 256) (hdata : ∀ b ∈ data, b < 256) :
    crc8_fast data init = crc8_spec data init ∧
    crc8_fast [0xBE, 0xEF] 0xFF = 0x92 :=
  ⟨crc8_fast_eq_spec data init hinit hdata, by decide⟩

/-- Witness for C1 at the known test vector. -/
theorem C1_witness :
    crc8_fast [0xBE, 0xEF] 0xFF = crc8_spec [0xBE, 0xEF] 0xFF ∧
    crc8_fast [0xBE, 0xEF] 0xFF = 0x92 :=
  C1_crc8_matches_documented_variant [0xBE, 0xEF] 0xFF (by norm_num) (by decide)

/-- C2: for all 16-bit raw words, decoding a checksum-valid frame yields
exactly `-45 + 175 * (t / 65535)` degrees and `100 * (h / 65535)` percent,
with the words read as unsigned big-endian integers and no rounding or
clamping; raw humidity `0x0000` gives 0, raw humidity `0xFFFF` gives 100,
and raw temperature `0x6666` gives a temperature within 0.01 of 25. -/
theorem C2_decode_formula (t h : Nat) (ht : t < 65536) (hh : h < 65536) :
    parse_sht4x (mkFrame t h)
      = Except.ok (-45 + 175 * ((t : ℚ) / 65535), 100 * ((h : ℚ) / 65535)) ∧
    parse_sht4x (mkFrame t 0)
      = Except.ok (-45 + 175 * ((t : ℚ) / 65535), 0) ∧
    parse_sht4x (mkFrame t 0xFFFF)
      = Except.ok (-45 + 175 * ((t : ℚ) / 65535), 100) ∧
    (∃ temp hum : ℚ,
      parse_sht4x (mkFrame 0x6666 h) = Except.ok (temp, hum) ∧
      |temp - 25| ≤ 1 / 100) := by
  refine ⟨?_, ?_, ?_, ?_⟩
  · rw [parse_mkFrame, word_roundtrip, word_roundtrip]
  · rw [parse_mkFrame, word_roundtrip]
    norm_num
  · rw [parse_mkFrame, word_roundtrip]
    norm_num
  · refine ⟨-45 + 175 * (((0x6666 / 256 * 256 + 0x6666 % 256 : Nat) : ℚ) / 65535),
      100 * (((h / 256 * 256 + h % 256 : Nat) : ℚ) / 65535), parse_mkFrame 0x6666 h, ?_⟩
    norm_num

/-- Witness for C2 at the raw words from the spec's round-trip example. -/
theorem C2_witness :
    parse_sht4x (mkFrame 0x6666 0xFFFF)
      = Except.ok (-45 + 175 * ((0x6666 : ℚ) / 65535), 100 * ((0xFFFF : ℚ) / 65535)) ∧
    parse_sht4x (mkFrame 0x6666 0)
      = Except.ok (-45 + 175 * ((0x6666 : ℚ) / 65535), 0) ∧
    parse_sht4x (mkFrame 0x6666 0xFFFF)
      = Except.ok (-45 + 175 * ((0x6666 : ℚ) / 65535), 100) ∧
    (∃ temp hum : ℚ,
      parse_sht4x (mkFrame 0x6666 0xFFFF) = Except.ok (temp, hum) ∧
      |temp - 25| ≤ 1 / 100) :=
  C2_decode_formula 0x6666 0xFFFF (by norm_num) (by norm_num)

/-- C3: the decoder validates the temperature checksum first, then the
humidity checksum, reporting exactly which field failed together with the
computed and embedded values; a pair is produced exactly when both
checksums validate, with no partial-success result. -/
theorem C3_checksum_gate (b0 b1 b2 b3 b4 b5 : Nat) :
    (crc8_fast [b0, b1] 0xFF ≠ b2 →
      parse_sht4x [b0, b1, b2, b3, b4, b5]
        = Except.error (DecodeError.tempCrc (crc8_fast [b0, b1] 0xFF) b2)) ∧
    (crc8_fast [b0, b1] 0xFF = b2 → crc8_fast [b3, b4] 0xFF ≠ b5 →
      parse_sht4x [b0, b1, b2, b3, b4, b5]
        = Except.error (DecodeError.humCrc (crc8_fast [b3, b4] 0xFF) b5)) ∧
    (crc8_fast [b0, b1] 0xFF = b2 → crc8_fast [b3, b4] 0xFF = b5 →
      parse_sht4x [b0, b1, b2, b3, b4, b5]
        = Except.ok (-45 + 175 * (((b0 * 256 + b1 : Nat) : ℚ) / 65535),
            100 * (((b3 * 256 + b4 : Nat) : ℚ) / 65535))) ∧
    (∀ m, parse_sht4x [b0, b1, b2, b3, b4, b5] = Except.ok m →
      crc8_fast [b0, b1] 0xFF = b2 ∧ crc8_fast [b3, b4] 0xFF = b5) := by
  refine ⟨fun h => parse_sht4x_temp_fail b3 b4 b5 h,
    fun ht hh => parse_sht4x_hum_fail ht hh,
    fun ht hh => parse_sht4x_ok ht hh,
    fun m hm => ?_⟩
  by_cases ht : crc8_fast [b0, b1] 0xFF = b2
  · by_cases hh : crc8_fast [b3, b4] 0xFF = b5
    · exact ⟨ht, hh⟩
    · rw [parse_sht4x_hum_fail ht hh] at hm
      exact Except.noConfusion hm
  · rw [parse_sht4x_temp_fail b3 b4 b5 ht] at hm
    exact Except.noConfusion hm

/-- Witness for C3: a frame whose temperature word validates but whose
humidity checksum byte is wrong is rejected with the humidity error. -/
theorem C3_witness :
    parse_sht4x [0xBE, 0xEF, 0x92, 0xBE, 0xEF, 0x00]
      = Except.error (DecodeError.humCrc (crc8_fast [0xBE, 0xEF] 0xFF) 0x00) :=
  (C3_checksum_gate 0xBE 0xEF 0x92 0xBE 0xEF 0x00).2.1 (by decide) (by decide)

/-- C4: starting from any frame whose two checksums validate, flipping any
single bit (position 0..15) of the temperature word without updating its
checksum makes the decoder fail with the temperature mismatch error, and
flipping any single bit of the humidity word makes it fail with the
humidity mismatch error: it never succeeds on such a frame and never blames
the other field. -/
theorem C4_bit_flip_detected (b0 b1 b2 b3 b4 b5 : Nat)
    (h0 : b0 < 256) (h1 : b1 < 256) (h3 : b3 < 256) (h4 : b4 < 256)
    (ht : crc8_fast [b0, b1] 0xFF = b2) (hh : crc8_fast [b3, b4] 0xFF = b5)
    (k : Nat) (hk : k < 16) :
    (∃ e, parse_sht4x
        [(flipWord b0 b1 k).1, (flipWord b0 b1 k).2, b2, b3, b4, b5]
      = Except.error (DecodeError.tempCrc e b2)) ∧
    (∃ e, parse_sht4x
        [b0, b1, b2, (flipWord b3 b4 k).1, (flipWord b3 b4 k).2, b5]
      = Except.error (DecodeError.humCrc e b5)) := by
  by_cases hk8 : k < 8
  · constructor
    · have hfw : flipWord b0 b1 k = (b0, flipBit b1 k) := by
        unfold flipWord; rw [if_pos hk8]
      have hne : crc8_fast [b0, flipBit b1 k] 0xFF ≠ b2 := by
        rw [← ht]; exact crc8_flip_lo_ne b0 h1 hk8
      rw [hfw]
      exact ⟨crc8_fast [b0, flipBit b1 k] 0xFF, parse_sht4x_temp_fail b3 b4 b5 hne⟩
    · have hfw : flipWord b3 b4 k = (b3, flipBit b4 k) := by
        unfold flipWord; rw [if_pos hk8]
      have hne : crc8_fast [b3, flipBit b4 k] 0xFF ≠ b5 := by
        rw [← hh]; exact crc8_flip_lo_ne b3 h4 hk8
      rw [hfw]
      exact ⟨crc8_fast [b3, flipBit b4 k] 0xFF, parse_sht4x_hum_fail ht hne⟩
  · have hk8' : k - 8 < 8 := by omega
    constructor
    · have hfw : flipWord b0 b1 k = (flipBit b0 (k - 8), b1) := by
        unfold flipWord; rw [if_neg hk8]
      have hne : crc8_fast [flipBit b0 (k - 8), b1] 0xFF ≠ b2 := by
        rw [← ht]; exact crc8_flip_hi_ne h0 b1 h1 hk8'
      rw [hfw]
      exact ⟨crc8_fast [flipBit b0 (k - 8), b1] 0xFF, parse_sht4x_temp_fail b3 b4 b5 hne⟩
    · have hfw : flipWord b3 b4 k = (flipBit b3 (k - 8), b4) := by
        unfold flipWord; rw [if_neg hk8]
      have hne : crc8_fast [flipBit b3 (k - 8), b4] 0xFF ≠ b5 := by
        rw [← hh]; exact crc8_flip_hi_ne h3 b4 h4 hk8'
      rw [hfw]
      exact ⟨crc8_fast [flipBit b3 (k - 8), b4] 0xFF, parse_sht4x_hum_fail ht hne⟩

/-- Witness for C4: flipping bit 3 of either word of a concrete valid frame
is caught and attributed to the right field. -/
theorem C4_witness :
    (∃ e, parse_sht4x
        [(flipWord 0xBE 0xEF 3).1, (flipWord 0xBE 0xEF 3).2, 0x92, 0xBE, 0xEF, 0x92]
      = Except.error (DecodeError.tempCrc e 0x92)) ∧
    (∃ e, parse_sht4x
        [0xBE, 0xEF, 0x92, (flipWord 0xBE 0xEF 3).1, (flipWord 0xBE 0xEF 3).2, 0x92]
      = Except.error (DecodeError.humCrc e 0x92)) :=
  C4_bit_flip_detected 0xBE 0xEF 0x92 0xBE 0xEF 0x92 (by norm_num) (by norm_num)
    (by norm_num) (by norm_num) (by decide) (by decide) 3 (by norm_num)

/-- C5: the table built from polynomial 0x31 has exactly 256 entries, and
entry `b` is the result of starting from `b` and applying 8 iterations of:
shift left one bit, mask to 8 bits, and xor the polynomial exactly when the
high bit 0x80 was set. -/
theorem C5_table_construction :
    (make_crc_table 0x31).length = 256 ∧
    ∀ b < 256, (make_crc_table 0x31).getD b 0 =
      (fun c =>
        if c &&& 0x80 ≠ 0 then ((c <<< 1) &&& 0xFF) ^^^ 0x31
        else (c <<< 1) &&& 0xFF)^[8] b := by
  refine ⟨make_crc_table_length 0x31, fun b hb => ?_⟩
  rw [make_crc_table_getD _ hb, crcEntry_eq_iterate]
  rfl

/-- Witness for C5 at byte value 0xBE. -/
theorem C5_witness :
    (make_crc_table 0x31).getD 0xBE 0 =
      (fun c =>
        if c &&& 0x80 ≠ 0 then ((c <<< 1) &&& 0xFF) ^^^ 0x31
        else (c <<< 1) &&& 0xFF)^[8] 0xBE :=
  C5_table_construction.2 0xBE (by norm_num)

/-- C10: for any 8-bit polynomial the table is 256 entries of bytes, and on
byte data `crc8_fast` keeps its running value in `0..255` at every step
(after any prefix of the data), so each table index `crc ^^^ byte` it forms
is in range of the 256-entry table. -/
theorem C10_byte_range_invariant (poly : Nat) (hp : poly < 256)
    (data : List Nat) (init : Nat) (hi : init < 256)
    (hd : ∀ b ∈ data, b < 256) :
    (make_crc_table poly).length = 256 ∧
    (∀ x ∈ make_crc_table poly, x < 256) ∧
    (∀ pref suff, data = pref ++ suff → crc8_fast pref init < 256) ∧
    (∀ pref b suff, data = pref ++ b :: suff →
      crc8_fast pref init ^^^ b < CRC_TABLE.length) := by
  refine ⟨make_crc_table_length poly, ?_, ?_, ?_⟩
  · intro x hx
    rw [make_crc_table_eq_map] at hx
    obtain ⟨n, _, rfl⟩ := List.mem_map.mp hx
    exact crcEntry_lt hp n
  · intro pref _ _
    exact crc8_fast_lt pref init hi
  · intro pref b suff hsplit
    have hb : b < 256 := hd b (by rw [hsplit]; simp)
    have hlen : CRC_TABLE.length = 256 := make_crc_table_length 0x31
    rw [hlen]
    exact xor_lt_256 (crc8_fast_lt pref init hi) hb

/-- Witness for C10 on the known test vector. -/
theorem C10_witness :
    (make_crc_table 0x31).length = 256 ∧
    (∀ x ∈ make_crc_table 0x31, x < 256) ∧
    (∀ pref suff, [0xBE, 0xEF] = pref ++ suff → crc8_fast pref 0xFF < 256) ∧
    (∀ pref b suff, ([0xBE, 0xEF] : List Nat) = pref ++ b :: suff →
      crc8_fast pref 0xFF ^^^ b < CRC_TABLE.length) :=
  C10_byte_range_invariant 0x31 (by norm_num) [0xBE, 0xEF] 0xFF (by norm_num)
    (by decide)

/-- C6: when the transport's 6-byte read returns a count other than 6, the
read path fails with the read-length error reporting expected count 6 and
the actual count, and the measurement path surfaces that same error — the
returned bytes are never handed to the decoder. -/
theorem C6_read_length_guard (tr : Transport) (s : SHT4x)
    (hw : tr.writeByteResult s.handle s.mode = 0)
    (hc : (tr.readDeviceResult s.handle 6).1 ≠ 6) :
    (SHT4x.read tr s).1
      = Except.error (Err.readLength 6 (tr.readDeviceResult s.handle 6).1) ∧
    (SHT4x.measurements tr s).1
      = Except.error (Err.readLength 6 (tr.readDeviceResult s.handle 6).1) := by
  have hr : SHT4x.read tr s
      = (Except.error (Err.readLength 6 (tr.readDeviceResult s.handle 6).1),
         [TransportOp.writeByte s.handle s.mode,
          TransportOp.readDevice s.handle 6]) := by
    unfold SHT4x.read
    rw [if_neg (by simp [hw]), if_pos hc]
  refine ⟨by rw [hr], ?_⟩
  simp only [SHT4x.measurements, hr]

/-- Witness for C6 against a transport whose read comes back 5 bytes. -/
theorem C6_witness :
    (SHT4x.read trShort s0).1
      = Except.error (Err.readLength 6 (trShort.readDeviceResult s0.handle 6).1) ∧
    (SHT4x.measurements trShort s0).1
      = Except.error (Err.readLength 6 (trShort.readDeviceResult s0.handle 6).1) :=
  C6_read_length_guard trShort s0 rfl (by decide)

/-- C7 counterexample: `close()` in the source is only
`self.pi.i2c_close(self.handle)` and mutates nothing, so on the very
session object whose handle 1 `close()` just released, `read()` still
performs transport operations (a command write and a bus read) on that
handle and, against a transport that accepts the stale handle, even
succeeds; `reset()` likewise writes to the bus.  No programming-error check
exists, refuting the claim that post-close calls fail fast without any
transport operation. -/
theorem C7_counterexample :
    SHT4x.close s0 = [TransportOp.closeHandle 1] ∧
    (SHT4x.read trOK s0).2
      = [TransportOp.writeByte 1 0xFD, TransportOp.readDevice 1 6] ∧
    (SHT4x.read trOK s0).1 = Except.ok [0xBE, 0xEF, 0x92, 0xBE, 0xEF, 0x92] ∧
    (SHT4x.reset trOK s0).2 = [TransportOp.writeByte 1 0x94] ∧
    (SHT4x.reset trOK s0).1 = Except.ok () :=
  ⟨rfl, rfl, rfl, rfl, rfl⟩

/-- C7 amended: `close()` leaves the session object unchanged, so a
subsequent `read()` or `reset()` performs its command write on the released
handle; when the transport rejects that write with a nonzero status the
methods raise the command-failure runtime errors — not a programming error
— and the write is always attempted first. -/
theorem C7_amended_read_after_close (tr : Transport) (s : SHT4x)
    (hw : tr.writeByteResult s.handle s.mode ≠ 0)
    (hrs : tr.writeByteResult s.handle SHT4x.SOFT_RESET ≠ 0) :
    SHT4x.read tr s
      = (Except.error Err.measureCmdFailed,
         [TransportOp.writeByte s.handle s.mode]) ∧
    SHT4x.reset tr s
      = (Except.error Err.resetFailed,
         [TransportOp.writeByte s.handle SHT4x.SOFT_RESET]) ∧
    (SHT4x.read tr s).2.head? = some (TransportOp.writeByte s.handle s.mode) := by
  refine ⟨?_, ?_, read_trace_head tr s⟩
  · unfold SHT4x.read
    rw [if_pos hw]
  · unfold SHT4x.reset
    rw [if_pos hrs]

/-- Witness for the amended C7 against a transport rejecting every write
with a pigpio-style negative status. -/
theorem C7_amended_witness :
    SHT4x.read trRejecting s0
      = (Except.error Err.measureCmdFailed,
         [TransportOp.writeByte s0.handle s0.mode]) ∧
    SHT4x.reset trRejecting s0
      = (Except.error Err.resetFailed,
         [TransportOp.writeByte s0.handle SHT4x.SOFT_RESET]) ∧
    (SHT4x.read trRejecting s0).2.head?
      = some (TransportOp.writeByte s0.handle s0.mode) :=
  C7_amended_read_after_close trRejecting s0 (by decide) (by decide)

/-- C8 counterexample: calling `close()` twice on the same session issues
the release of the same handle 1 to the transport twice — the combined
trace holds two `closeHandle 1` operations, refuting the claim that in no
case is a second release of the same handle issued. -/
theorem C8_counterexample :
    closeTwice s0 = [TransportOp.closeHandle 1, TransportOp.closeHandle 1] ∧
    (closeTwice s0).count (TransportOp.closeHandle 1) = 2 :=
  ⟨rfl, rfl⟩

/-- C8 amended: every `close()` call, including on an already-closed
session, unconditionally issues the release of the stored handle to the
transport and ignores the returned status: a second `close()` silently
re-releases the same handle, rather than being a transport-level no-op or
raising a programming error. -/
theorem C8_amended_close_reissues (s : SHT4x) :
    SHT4x.close s = [TransportOp.closeHandle s.handle] ∧
    closeTwice s
      = [TransportOp.closeHandle s.handle, TransportOp.closeHandle s.handle] :=
  ⟨rfl, rfl⟩

/-- C9: the command byte constants have exactly the documented values, a
session constructed without a mode stores the no-heat high-precision byte
0xFD, and every `read()` writes the stored mode byte to the device as its
first transport operation. -/
theorem C9_command_set_and_default_mode (tr : Transport) (bus address : Nat)
    (hopen : ¬ tr.openResult bus address < 0) :
    SHT4x.SOFT_RESET = 0x94 ∧
    SHT4x.NOHEAT_HIGHPRECISION = 0xFD ∧
    SHT4x.NOHEAT_MEDPRECISION = 0xF6 ∧
    SHT4x.NOHEAT_LOWPRECISION = 0xE0 ∧
    SHT4x.HIGHHEAT_1S = 0x39 ∧
    SHT4x.HIGHHEAT_100MS = 0x3A ∧
    SHT4x.MEDHEAT_1S = 0x32 ∧
    SHT4x.MEDHEAT_100MS = 0x33 ∧
    SHT4x.LOWHEAT_1S = 0x2F ∧
    SHT4x.LOWHEAT_100MS = 0x30 ∧
    (SHT4x.init tr bus address none).1
      = Except.ok { handle := tr.openResult bus address, mode := 0xFD } ∧
    (∀ s : SHT4x, (SHT4x.read tr s).2.head?
      = some (TransportOp.writeByte s.handle s.mode)) := by
  refine ⟨rfl, rfl, rfl, rfl, rfl, rfl, rfl, rfl, rfl, rfl, ?_,
    fun s => read_trace_head tr s⟩
  unfold SHT4x.init
  rw [if_neg hopen]
  rfl

/-- Witness for C9 against the accepting transport at the default bus and
address. -/
theorem C9_witness :
    SHT4x.SOFT_RESET = 0x94 ∧
    SHT4x.NOHEAT_HIGHPRECISION = 0xFD ∧
    SHT4x.NOHEAT_MEDPRECISION = 0xF6 ∧
    SHT4x.NOHEAT_LOWPRECISION = 0xE0 ∧
    SHT4x.HIGHHEAT_1S = 0x39 ∧
    SHT4x.HIGHHEAT_100MS = 0x3A ∧
    SHT4x.MEDHEAT_1S = 0x32 ∧
    SHT4x.MEDHEAT_100MS = 0x33 ∧
    SHT4x.LOWHEAT_1S = 0x2F ∧
    SHT4x.LOWHEAT_100MS = 0x30 ∧
    (SHT4x.init trOK 0 0x44 none).1
      = Except.ok { handle := trOK.openResult 0 0x44, mode := 0xFD } ∧
    (∀ s : SHT4x, (SHT4x.read trOK s).2.head?
      = some (TransportOp.writeByte s.handle s.mode)) :=
  C9_command_set_and_default_mode trOK 0 0x44 (by decide)
